import Mathlib

/-!
Verification of the World Calc Hub single-file calculator collection
(src/world_all_in_one_calculators_react_tailwind_single_file.jsx).

The JavaScript number type is embedded as `JNum`: a finite value is an
exact rational, and the non-finite values NaN, Infinity and -Infinity are
explicit constructors.  Arithmetic in the formulas is carried out over ℚ
(the idealized exact semantics of the closed-form formulas the spec
describes); the NaN sentinel produced by failed unit lookups is modelled
by `Option.none`.
-/

/-- A JavaScript number: a finite (exact rational) value, NaN, or an
infinity. -/
inductive JNum where
  | fin (q : ℚ)
  | nan
  | inf
  | ninf
deriving DecidableEq, Repr

/-- An input to `toNum`: a native number or a string (source line 69 takes
either). -/
inductive JVal where
  | num (n : JNum)
  | str (s : String)
deriving DecidableEq, Repr

/-- Whether a JavaScript number is finite (Number.isFinite). -/
def jnumIsFinite : JNum → Bool
  | JNum.fin _ => true
  | _ => false

/-- The comma-stripping step of `toNum` (source line 70:
`String(v).replace(/,/g, "")`). -/
def stripThousands (s : String) : String :=
  String.mk (s.toList.filter (fun c => c ≠ ','))

/-- Value of a decimal digit character, none for a non-digit. -/
def digitVal? (c : Char) : Option ℕ :=
  if c.isDigit then some (c.toNat - 48) else none

/-- Split a character list into its longest decimal-digit run and the
rest. -/
def takeDigits : List Char → List ℕ × List Char
  | [] => ([], [])
  | c :: rest =>
    match digitVal? c with
    | some d =>
      let p := takeDigits rest
      (d :: p.1, p.2)
    | none => ([], c :: rest)

/-- Value of a digit list in a given base (most significant first). -/
def natOfDigits (b : ℕ) (ds : List ℕ) : ℕ :=
  ds.foldl (fun acc d => acc * b + d) 0

/-- Parse an optional leading sign. -/
def parseSign : List Char → ℤ × List Char
  | '+' :: r => (1, r)
  | '-' :: r => (-1, r)
  | r => (1, r)

/-- Parse the exponent part after the letter e of a float literal; an
invalid exponent contributes 0, matching the longest-valid-prefix rule of
JavaScript parseFloat. -/
def parseExp (r : List Char) : ℤ :=
  let sg := parseSign r
  let dp := takeDigits sg.2
  if dp.1 = [] then 0 else sg.1 * (natOfDigits 10 dp.1 : ℤ)

/-- Model of JavaScript parseFloat: skip leading whitespace, optional
sign, then the longest decimal-literal prefix (integer digits, optional
fraction, optional exponent) or the literal Infinity; no valid prefix
gives NaN. -/
def parseFloat (s : String) : JNum :=
  let cs := s.toList.dropWhile Char.isWhitespace
  let sg := parseSign cs
  let body := sg.2
  if body.take 8 = "Infinity".toList then
    if sg.1 = 1 then JNum.inf else JNum.ninf
  else
    let ip := takeDigits body
    let fp :=
      match ip.2 with
      | '.' :: r => takeDigits r
      | r => ([], r)
    if ip.1 = [] ∧ fp.1 = [] then JNum.nan
    else
      let mant : ℚ := (natOfDigits 10 ip.1 : ℚ) +
        (natOfDigits 10 fp.1 : ℚ) / (10 : ℚ) ^ fp.1.length
      let e : ℤ :=
        match fp.2 with
        | 'e' :: r => parseExp r
        | 'E' :: r => parseExp r
        | _ => 0
      JNum.fin ((sg.1 : ℚ) * mant * (10 : ℚ) ^ e)

/-- `toNum` (source lines 69-72): a native number passes through, a
string is comma-stripped and parsed; a non-finite result yields the
default `d` (the source default is 0). -/
def toNum (v : JVal) (d : ℚ) : ℚ :=
  let n : JNum :=
    match v with
    | JVal.num m => m
    | JVal.str s => parseFloat (stripThousands s)
  match n with
  | JNum.fin q => q
  | _ => d

/-- An input to `fmt` (source line 74): undefined, null, or a number. -/
inductive FmtIn where
  | undef
  | null
  | num (n : JNum)
deriving DecidableEq, Repr

/-- The result of `fmt`: the dash sentinel, or a locale-formatted
rendering of a finite value with a maximum number of fraction digits
(the exact locale string is outside the functional contract). -/
inductive FmtOut where
  | dash
  | locale (value : ℚ) (maxFrac : ℕ)
deriving DecidableEq, Repr

/-- JavaScript Number() conversion on the values `fmt` can receive. -/
def jsNumber : FmtIn → JNum
  | FmtIn.undef => JNum.nan
  | FmtIn.null => JNum.fin 0
  | FmtIn.num m => m

/-- `fmt` (source lines 74-78): dash for undefined, null or NaN; then
convert with Number() and render only finite values. -/
def fmt (n : FmtIn) (d : ℕ) : FmtOut :=
  if n = FmtIn.undef ∨ n = FmtIn.null ∨ n = FmtIn.num JNum.nan then FmtOut.dash
  else
    match jsNumber n with
    | JNum.fin q => FmtOut.locale q d
    | _ => FmtOut.dash

/-- Claim C7: fmt returns the dash sentinel whenever its value argument
is undefined, null, or NaN, for every decimals argument; in particular
fmt NaN and fmt undefined are the dash. -/
theorem fmt_dash_undef_null_nan :
    ∀ d : ℕ, fmt FmtIn.undef d = FmtOut.dash ∧
      fmt FmtIn.null d = FmtOut.dash ∧
      fmt (FmtIn.num JNum.nan) d = FmtOut.dash := by
  intro d
  refine ⟨rfl, rfl, rfl⟩

/-- Claim C10: fmt returns the dash sentinel also for the two infinite
inputs, for every decimals argument, and never renders an infinity as a
locale string. -/
theorem fmt_dash_infinite :
    ∀ d : ℕ, fmt (FmtIn.num JNum.inf) d = FmtOut.dash ∧
      fmt (FmtIn.num JNum.ninf) d = FmtOut.dash := by
  intro d
  refine ⟨rfl, rfl⟩

/-- A length unit descriptor (source lines 309-316): conversions to and
from the canonical meter. -/
structure LUnit where
  id : String
  toM : ℚ → ℚ
  fromM : ℚ → ℚ

/-- The length unit table (source lines 309-316). -/
def lengthUnits : List LUnit := [
  ⟨"mm", fun v => v/1000, fun v => v*1000⟩,
  ⟨"cm", fun v => v/100, fun v => v*100⟩,
  ⟨"m", fun v => v, fun v => v⟩,
  ⟨"km", fun v => v*1000, fun v => v/1000⟩,
  ⟨"inch", fun v => v*0.0254, fun v => v/0.0254⟩,
  ⟨"ft", fun v => v*0.3048, fun v => v/0.3048⟩]

/-- The length conversion (source lines 320-325): look both unit ids up,
compose through the canonical meter; a failed lookup gives the NaN
sentinel, modelled as none. -/
def lengthConvert (val : ℚ) (fromU toU : String) : Option ℚ :=
  match lengthUnits.find? (fun u => u.id == fromU),
        lengthUnits.find? (fun u => u.id == toU) with
  | some f, some t => some (t.fromM (f.toM val))
  | _, _ => none

theorem lengthUnits_roundtrip :
    ∀ u ∈ lengthUnits, (∀ x : ℚ, u.fromM (u.toM x) = x) ∧
      (∀ x : ℚ, u.toM (u.fromM x) = x) := by
  intro u hu
  fin_cases hu <;> refine ⟨fun x => ?_, fun x => ?_⟩ <;> field_simp

theorem lengthConvert_roundtrip (x y : ℚ) (u1 u2 : String)
    (h : lengthConvert x u1 u2 = some y) : lengthConvert y u2 u1 = some x := by
  unfold lengthConvert at h ⊢
  cases hf : lengthUnits.find? (fun u => u.id == u1) with
  | none => rw [hf] at h; cases h
  | some f =>
    cases ht : lengthUnits.find? (fun u => u.id == u2) with
    | none => rw [hf, ht] at h; cases h
    | some t =>
      rw [hf, ht] at h
      have hfm := lengthUnits_roundtrip f (List.mem_of_find?_eq_some hf)
      have htm := lengthUnits_roundtrip t (List.mem_of_find?_eq_some ht)
      simp only [Option.some.injEq] at h ⊢
      rw [← h, htm.2, hfm.1]

/-- A weight unit descriptor (source lines 339-343): conversions to and
from the canonical kilogram. -/
structure WUnit where
  id : String
  toKg : ℚ → ℚ
  fromKg : ℚ → ℚ

/-- The weight unit table (source lines 339-343). -/
def weightUnits : List WUnit := [
  ⟨"g", fun v => v/1000, fun v => v*1000⟩,
  ⟨"kg", fun v => v, fun v => v⟩,
  ⟨"lb", fun v => v*0.45359237, fun v => v/0.45359237⟩]

/-- The weight conversion (source lines 347-352). -/
def weightConvert (val : ℚ) (fromU toU : String) : Option ℚ :=
  match weightUnits.find? (fun u => u.id == fromU),
        weightUnits.find? (fun u => u.id == toU) with
  | some f, some t => some (t.fromKg (f.toKg val))
  | _, _ => none

theorem weightUnits_roundtrip :
    ∀ u ∈ weightUnits, (∀ x : ℚ, u.fromKg (u.toKg x) = x) ∧
      (∀ x : ℚ, u.toKg (u.fromKg x) = x) := by
  intro u hu
  fin_cases hu <;> refine ⟨fun x => ?_, fun x => ?_⟩ <;> field_simp

theorem weightConvert_roundtrip (x y : ℚ) (u1 u2 : String)
    (h : weightConvert x u1 u2 = some y) : weightConvert y u2 u1 = some x := by
  unfold weightConvert at h ⊢
  cases hf : weightUnits.find? (fun u => u.id == u1) with
  | none => rw [hf] at h; cases h
  | some f =>
    cases ht : weightUnits.find? (fun u => u.id == u2) with
    | none => rw [hf, ht] at h; cases h
    | some t =>
      rw [hf, ht] at h
      have hfm := weightUnits_roundtrip f (List.mem_of_find?_eq_some hf)
      have htm := weightUnits_roundtrip t (List.mem_of_find?_eq_some ht)
      simp only [Option.some.injEq] at h ⊢
      rw [← h, htm.2, hfm.1]

/-- A time unit descriptor (source lines 366-371): conversions to and
from the canonical second. -/
structure TUnit where
  id : String
  toS : ℚ → ℚ
  fromS : ℚ → ℚ

/-- The time unit table (source lines 366-371). -/
def timeUnits : List TUnit := [
  ⟨"sec", fun v => v, fun v => v⟩,
  ⟨"min", fun v => v*60, fun v => v/60⟩,
  ⟨"hr", fun v => v*3600, fun v => v/3600⟩,
  ⟨"day", fun v => v*86400, fun v => v/86400⟩]

/-- The time conversion (source lines 375-379). -/
def timeConvert (val : ℚ) (fromU toU : String) : Option ℚ :=
  match timeUnits.find? (fun u => u.id == fromU),
        timeUnits.find? (fun u => u.id == toU) with
  | some f, some t => some (t.fromS (f.toS val))
  | _, _ => none

theorem timeUnits_roundtrip :
    ∀ u ∈ timeUnits, (∀ x : ℚ, u.fromS (u.toS x) = x) ∧
      (∀ x : ℚ, u.toS (u.fromS x) = x) := by
  intro u hu
  fin_cases hu <;> refine ⟨fun x => ?_, fun x => ?_⟩ <;> field_simp

theorem timeConvert_roundtrip (x y : ℚ) (u1 u2 : String)
    (h : timeConvert x u1 u2 = some y) : timeConvert y u2 u1 = some x := by
  unfold timeConvert at h ⊢
  cases hf : timeUnits.find? (fun u => u.id == u1) with
  | none => rw [hf] at h; cases h
  | some f =>
    cases ht : timeUnits.find? (fun u => u.id == u2) with
    | none => rw [hf, ht] at h; cases h
    | some t =>
      rw [hf, ht] at h
      have hfm := timeUnits_roundtrip f (List.mem_of_find?_eq_some hf)
      have htm := timeUnits_roundtrip t (List.mem_of_find?_eq_some ht)
      simp only [Option.some.injEq] at h ⊢
      rw [← h, htm.2, hfm.1]

/-- A speed unit descriptor (source lines 393-397): conversions to and
from the canonical meter per second. -/
structure SUnit where
  id : String
  toMS : ℚ → ℚ
  fromMS : ℚ → ℚ

/-- The speed unit table (source lines 393-397). -/
def speedUnits : List SUnit := [
  ⟨"m/s", fun v => v, fun v => v⟩,
  ⟨"km/h", fun v => v/3.6, fun v => v*3.6⟩,
  ⟨"mph", fun v => v*0.44704, fun v => v/0.44704⟩]

/-- The speed conversion (source lines 401-405). -/
def speedConvert (val : ℚ) (fromU toU : String) : Option ℚ :=
  match speedUnits.find? (fun u => u.id == fromU),
        speedUnits.find? (fun u => u.id == toU) with
  | some f, some t => some (t.fromMS (f.toMS val))
  | _, _ => none

theorem speedUnits_roundtrip :
    ∀ u ∈ speedUnits, (∀ x : ℚ, u.fromMS (u.toMS x) = x) ∧
      (∀ x : ℚ, u.toMS (u.fromMS x) = x) := by
  intro u hu
  fin_cases hu <;> refine ⟨fun x => ?_, fun x => ?_⟩ <;> field_simp

theorem speedConvert_roundtrip (x y : ℚ) (u1 u2 : String)
    (h : speedConvert x u1 u2 = some y) : speedConvert y u2 u1 = some x := by
  unfold speedConvert at h ⊢
  cases hf : speedUnits.find? (fun u => u.id == u1) with
  | none => rw [hf] at h; cases h
  | some f =>
    cases ht : speedUnits.find? (fun u => u.id == u2) with
    | none => rw [hf, ht] at h; cases h
    | some t =>
      rw [hf, ht] at h
      have hfm := speedUnits_roundtrip f (List.mem_of_find?_eq_some hf)
      have htm := speedUnits_roundtrip t (List.mem_of_find?_eq_some ht)
      simp only [Option.some.injEq] at h ⊢
      rw [← h, htm.2, hfm.1]

/-- An area unit descriptor (source lines 419-422): conversions to and
from the canonical square meter. -/
structure AUnit where
  id : String
  toM2 : ℚ → ℚ
  fromM2 : ℚ → ℚ

/-- The area unit table (source lines 419-422). -/
def areaUnits : List AUnit := [
  ⟨"sq m", fun v => v, fun v => v⟩,
  ⟨"sq ft", fun v => v*0.09290304, fun v => v/0.09290304⟩]

/-- The area conversion (source lines 426-430). -/
def areaConvert (val : ℚ) (fromU toU : String) : Option ℚ :=
  match areaUnits.find? (fun u => u.id == fromU),
        areaUnits.find? (fun u => u.id == toU) with
  | some f, some t => some (t.fromM2 (f.toM2 val))
  | _, _ => none

theorem areaUnits_roundtrip :
    ∀ u ∈ areaUnits, (∀ x : ℚ, u.fromM2 (u.toM2 x) = x) ∧
      (∀ x : ℚ, u.toM2 (u.fromM2 x) = x) := by
  intro u hu
  fin_cases hu <;> refine ⟨fun x => ?_, fun x => ?_⟩ <;> field_simp

theorem areaConvert_roundtrip (x y : ℚ) (u1 u2 : String)
    (h : areaConvert x u1 u2 = some y) : areaConvert y u2 u1 = some x := by
  unfold areaConvert at h ⊢
  cases hf : areaUnits.find? (fun u => u.id == u1) with
  | none => rw [hf] at h; cases h
  | some f =>
    cases ht : areaUnits.find? (fun u => u.id == u2) with
    | none => rw [hf, ht] at h; cases h
    | some t =>
      rw [hf, ht] at h
      have hfm := areaUnits_roundtrip f (List.mem_of_find?_eq_some hf)
      have htm := areaUnits_roundtrip t (List.mem_of_find?_eq_some ht)
      simp only [Option.some.injEq] at h ⊢
      rw [← h, htm.2, hfm.1]

/-- Claim C1: in every scalar conversion domain (length, weight, time,
speed, area) every unit satisfies the exact per-unit round trip
fromCanonical (toCanonical x) = x, and consequently every successful
pairwise conversion is undone exactly by the reverse conversion. -/
theorem converters_roundtrip (x : ℚ) :
    (∀ u ∈ lengthUnits, u.fromM (u.toM x) = x) ∧
    (∀ u ∈ weightUnits, u.fromKg (u.toKg x) = x) ∧
    (∀ u ∈ timeUnits, u.fromS (u.toS x) = x) ∧
    (∀ u ∈ speedUnits, u.fromMS (u.toMS x) = x) ∧
    (∀ u ∈ areaUnits, u.fromM2 (u.toM2 x) = x) ∧
    (∀ u1 u2 y, lengthConvert x u1 u2 = some y → lengthConvert y u2 u1 = some x) ∧
    (∀ u1 u2 y, weightConvert x u1 u2 = some y → weightConvert y u2 u1 = some x) ∧
    (∀ u1 u2 y, timeConvert x u1 u2 = some y → timeConvert y u2 u1 = some x) ∧
    (∀ u1 u2 y, speedConvert x u1 u2 = some y → speedConvert y u2 u1 = some x) ∧
    (∀ u1 u2 y, areaConvert x u1 u2 = some y → areaConvert y u2 u1 = some x) := by
  refine ⟨fun u hu => (lengthUnits_roundtrip u hu).1 x,
    fun u hu => (weightUnits_roundtrip u hu).1 x,
    fun u hu => (timeUnits_roundtrip u hu).1 x,
    fun u hu => (speedUnits_roundtrip u hu).1 x,
    fun u hu => (areaUnits_roundtrip u hu).1 x,
    fun u1 u2 y h => lengthConvert_roundtrip x y u1 u2 h,
    fun u1 u2 y h => weightConvert_roundtrip x y u1 u2 h,
    fun u1 u2 y h => timeConvert_roundtrip x y u1 u2 h,
    fun u1 u2 y h => speedConvert_roundtrip x y u1 u2 h,
    fun u1 u2 y h => areaConvert_roundtrip x y u1 u2 h⟩

/-- Witness for C1: 1 m converts to 1250/381 ft (that is 1/0.3048), and
the round trip back to m recovers 1 exactly. -/
theorem converters_roundtrip_witness :
    lengthConvert ((1250 : ℚ)/381) "ft" "m" = some 1 :=
  (converters_roundtrip 1).2.2.2.2.2.1 "m" "ft" ((1250 : ℚ)/381)
    (by simp [lengthConvert, lengthUnits]; norm_num)

theorem find?_id_eq_none {α : Type} (idf : α → String) (l : List α) (s : String)
    (h : s ∉ l.map idf) : l.find? (fun u => idf u == s) = none := by
  rw [List.find?_eq_none]
  intro a ha
  simp only [beq_iff_eq]
  exact fun hid => h (List.mem_map.mpr ⟨a, ha, hid⟩)

/-- Claim C8: in every scalar conversion domain, if either requested unit
id is absent from the unit table of the domain, the conversion result is
the NaN sentinel (modelled as none), returned as a value rather than
raised. -/
theorem convert_unknown_unit (v : ℚ) (u1 u2 : String) :
    ((u1 ∉ lengthUnits.map LUnit.id ∨ u2 ∉ lengthUnits.map LUnit.id) →
      lengthConvert v u1 u2 = none) ∧
    ((u1 ∉ weightUnits.map WUnit.id ∨ u2 ∉ weightUnits.map WUnit.id) →
      weightConvert v u1 u2 = none) ∧
    ((u1 ∉ timeUnits.map TUnit.id ∨ u2 ∉ timeUnits.map TUnit.id) →
      timeConvert v u1 u2 = none) ∧
    ((u1 ∉ speedUnits.map SUnit.id ∨ u2 ∉ speedUnits.map SUnit.id) →
      speedConvert v u1 u2 = none) ∧
    ((u1 ∉ areaUnits.map AUnit.id ∨ u2 ∉ areaUnits.map AUnit.id) →
      areaConvert v u1 u2 = none) := by
  refine ⟨?_, ?_, ?_, ?_, ?_⟩
  · rintro (h|h)
    · unfold lengthConvert
      rw [find?_id_eq_none LUnit.id lengthUnits u1 h]
    · unfold lengthConvert
      rw [find?_id_eq_none LUnit.id lengthUnits u2 h]
      cases lengthUnits.find? (fun u => u.id == u1) <;> rfl
  · rintro (h|h)
    · unfold weightConvert
      rw [find?_id_eq_none WUnit.id weightUnits u1 h]
    · unfold weightConvert
      rw [find?_id_eq_none WUnit.id weightUnits u2 h]
      cases weightUnits.find? (fun u => u.id == u1) <;> rfl
  · rintro (h|h)
    · unfold timeConvert
      rw [find?_id_eq_none TUnit.id timeUnits u1 h]
    · unfold timeConvert
      rw [find?_id_eq_none TUnit.id timeUnits u2 h]
      cases timeUnits.find? (fun u => u.id == u1) <;> rfl
  · rintro (h|h)
    · unfold speedConvert
      rw [find?_id_eq_none SUnit.id speedUnits u1 h]
    · unfold speedConvert
      rw [find?_id_eq_none SUnit.id speedUnits u2 h]
      cases speedUnits.find? (fun u => u.id == u1) <;> rfl
  · rintro (h|h)
    · unfold areaConvert
      rw [find?_id_eq_none AUnit.id areaUnits u1 h]
    · unfold areaConvert
      rw [find?_id_eq_none AUnit.id areaUnits u2 h]
      cases areaUnits.find? (fun u => u.id == u1) <;> rfl

/-- Witness for C8: the unknown length unit id xx makes the conversion
return the NaN sentinel. -/
theorem convert_unknown_unit_witness : lengthConvert 1 "xx" "m" = none :=
  (convert_unknown_unit 1 "xx" "m").1 (Or.inl (by decide))

/-- The output record of the GST calculation (source lines 154-162). -/
structure GstOut where
  tax : ℚ
  total : ℚ
deriving DecidableEq, Repr

/-- The GST calculation (source lines 154-162): with r = ratePct/100,
Add mode returns tax = a*r and total = a + tax; Remove mode returns
base = a/(1+r) as total and tax = a - base. -/
def gstCalc (amount ratePct : ℚ) (mode : String) : GstOut :=
  if mode = "Add GST" then
    ⟨amount * (ratePct/100), amount + amount * (ratePct/100)⟩
  else
    ⟨amount - amount / (1 + ratePct/100), amount / (1 + ratePct/100)⟩

/-- Counterexample to C3 as stated: at ratePct = -100 the Add total is 0
and the Remove step divides by 1 + (-1) = 0, so the original amount 1000
is not recovered (the JavaScript source produces NaN there; over ℚ the
division by zero yields 0 - under both semantics the total differs from
1000). -/
theorem gst_add_remove_cex :
    (gstCalc (gstCalc 1000 (-100) "Add GST").total (-100) "Remove GST").total ≠ 1000 := by
  norm_num [gstCalc]

/-- Claim C3 (amended): for every amount and every rate other than -100
percent, applying Add mode and then Remove mode with the same rate to
the Add total recovers the original amount exactly. -/
theorem gst_add_remove_roundtrip (a r : ℚ) (h : r ≠ -100) :
    (gstCalc (gstCalc a r "Add GST").total r "Remove GST").total = a := by
  have h2 : (100 : ℚ) + r ≠ 0 := by
    intro hc
    apply h
    linarith
  simp only [gstCalc, String.reduceEq, if_true, if_false, reduceIte]
  field_simp
  ring

/-- Witness for C3: amount 1000 at 18 percent goes to total 1180 and back
to 1000. -/
theorem gst_add_remove_roundtrip_witness :
    (gstCalc (gstCalc 1000 18 "Add GST").total 18 "Remove GST").total = 1000 :=
  gst_add_remove_roundtrip 1000 18 (by norm_num)

/-- The month count of the EMI calculator (source line 451): tenure in
years is multiplied by 12; either way the result is rounded to the
nearest integer (JavaScript Math.round, which is round half up, agreeing
with Mathlib round). -/
def emiMonths (t : ℚ) (ty : String) : ℤ :=
  if ty = "Years" then round (t*12) else round t

/-- The output record of the EMI calculator (source lines 448-459). -/
structure EmiOut where
  emi : ℚ
  total : ℚ
  interest : ℚ
  months : ℤ
deriving DecidableEq, Repr

/-- The EMI calculation (source lines 448-459): monthlyR = r/12/100; in
the zero-rate branch emi = principal/months, total = principal and
interest = 0; otherwise the standard annuity formula with
pow = (1+monthlyR)^months. -/
def emiOut (p r t : ℚ) (ty : String) : EmiOut :=
  let monthlyR := r/12/100
  let months := emiMonths t ty
  if monthlyR = 0 then
    ⟨p / (months : ℚ), p, 0, months⟩
  else
    let pw := (1 + monthlyR)^months
    let emi := p * monthlyR * (pw / (pw - 1))
    ⟨emi, emi * (months : ℚ), emi * (months : ℚ) - p, months⟩

/-- Claim C2: whenever the derived monthly rate r/12/100 is 0 and the
month count is positive, the EMI equals principal/months exactly, the
total equals the principal, and the interest is exactly 0. -/
theorem emi_zero_rate (p r t : ℚ) (ty : String)
    (h0 : r/12/100 = 0) (hm : 0 < emiMonths t ty) :
    (emiOut p r t ty).months = emiMonths t ty ∧
    (emiOut p r t ty).emi = p / ((emiMonths t ty : ℤ) : ℚ) ∧
    (emiOut p r t ty).total = p ∧
    (emiOut p r t ty).interest = 0 := by
  simp [emiOut, h0]

/-- Witness for C2: principal 500000 at rate 0 for 5 years gives 60
months, EMI 500000/60, total 500000 and zero interest. -/
theorem emi_zero_rate_witness :
    (emiOut 500000 0 5 "Years").months = emiMonths 5 "Years" ∧
    (emiOut 500000 0 5 "Years").emi = 500000 / ((emiMonths 5 "Years" : ℤ) : ℚ) ∧
    (emiOut 500000 0 5 "Years").total = 500000 ∧
    (emiOut 500000 0 5 "Years").interest = 0 :=
  emi_zero_rate 500000 0 5 "Years" (by norm_num)
    (by norm_num [emiMonths, round_eq])

/-- A registry entry (source lines 579-598): id, display title, search
keywords; the rendered component reference is irrelevant to the
search/selection contract. -/
structure CalcEntry where
  id : String
  title : String
  keywords : String
deriving DecidableEq, Repr

/-- The calculator registry (source lines 579-598), in source order. -/
def CALC_REGISTRY : List CalcEntry := [
  ⟨"basic", "Basic Calculator", "add subtract multiply divide arithmetic"⟩,
  ⟨"percent", "Percentage", "percentage increase percent off"⟩,
  ⟨"discount", "Discount", "sale price off"⟩,
  ⟨"gst", "GST/VAT", "tax vat gst inclusive exclusive"⟩,
  ⟨"bmi", "BMI", "body mass index health"⟩,
  ⟨"age", "Age", "age years months days"⟩,
  ⟨"datediff", "Date Difference", "days between dates weeks"⟩,
  ⟨"temp", "Temperature", "celsius fahrenheit kelvin"⟩,
  ⟨"length", "Length", "mm cm m km inch foot"⟩,
  ⟨"weight", "Weight", "g kg lb mass"⟩,
  ⟨"time", "Time", "seconds minutes hours days"⟩,
  ⟨"speed", "Speed", "km/h m/s mph"⟩,
  ⟨"area", "Area", "square meter foot"⟩,
  ⟨"emi", "EMI", "loan monthly payment interest"⟩,
  ⟨"sip", "SIP", "mutual fund investment future value"⟩,
  ⟨"compound", "Compound Interest", "interest compounding"⟩,
  ⟨"fraction", "Fraction → Decimal", "rational number division"⟩,
  ⟨"base", "Base Converter", "binary hex decimal"⟩]

/-- JavaScript String.prototype.trim, as a character-list computation. -/
def jsTrim (s : String) : String :=
  String.mk (((s.toList.dropWhile Char.isWhitespace).reverse.dropWhile
    Char.isWhitespace).reverse)

/-- JavaScript String.prototype.toLowerCase, as a per-character map. -/
def jsToLower (s : String) : String :=
  String.mk (s.toList.map Char.toLower)

/-- Whether the first list starts with the second. -/
def startsWithList : List Char → List Char → Bool
  | _, [] => true
  | [], _ :: _ => false
  | a :: as, b :: bs => a == b && startsWithList as bs

/-- Whether the second list occurs contiguously inside the first. -/
def containsList : List Char → List Char → Bool
  | s, q =>
    match s with
    | [] => q.isEmpty
    | _ :: rest => startsWithList s q || containsList rest q

/-- JavaScript String.includes: the second string occurs as a contiguous
substring of the first. -/
def jsIncludes (s q : String) : Bool :=
  containsList s.toList q.toList

/-- The search filter (source lines 604-610): trim and lowercase the
query; an empty result keeps the whole registry, otherwise keep the
entries whose lowercased title or keywords contain the query. -/
def filterRegistry (query : String) : List CalcEntry :=
  let q := jsToLower (jsTrim query)
  if q = "" then CALC_REGISTRY
  else CALC_REGISTRY.filter
    (fun c => jsIncludes (jsToLower c.title) q || jsIncludes (jsToLower c.keywords) q)

/-- Claim C4: an empty trimmed case-folded query returns the full
registry in order; otherwise the result is exactly the subset of entries
whose title or keywords contain the query case-insensitively, in
original order (a sublist of the registry); a query matching nothing
returns the empty list. -/
theorem filterRegistry_spec (query : String) :
    (jsToLower (jsTrim query) = "" → filterRegistry query = CALC_REGISTRY) ∧
    (jsToLower (jsTrim query) ≠ "" →
      List.Sublist (filterRegistry query) CALC_REGISTRY ∧
      ∀ c, c ∈ filterRegistry query ↔ c ∈ CALC_REGISTRY ∧
        (jsIncludes (jsToLower c.title) (jsToLower (jsTrim query)) ||
          jsIncludes (jsToLower c.keywords) (jsToLower (jsTrim query))) = true) ∧
    filterRegistry "zzz-no-match" = [] := by
  refine ⟨fun h => by simp [filterRegistry, h], fun h => ?_, ?_⟩
  · constructor
    · simp only [filterRegistry, if_neg h]
      exact List.filter_sublist _
    · intro c
      simp [filterRegistry, if_neg h, List.mem_filter]
  · decide

/-- Witness for C4: the empty query returns the registry unchanged. -/
theorem filterRegistry_spec_witness : filterRegistry "" = CALC_REGISTRY :=
  (filterRegistry_spec "").1 (by decide)

/-- The active-entry resolution (source line 612):
filtered.find(id match) or filtered[0] or CALC_REGISTRY[0], with the JS
or-chain on possibly undefined objects modelled by Option. -/
def resolveActive (l : List CalcEntry) (activeId : String) : Option CalcEntry :=
  match l.find? (fun c => c.id == activeId) with
  | some c => some c
  | none =>
    match l.head? with
    | some c => some c
    | none => CALC_REGISTRY.head?

/-- Claim C5: the resolved entry is the member of the filtered list whose
id equals activeId when one exists, otherwise the first filtered entry,
otherwise the first registry entry; since the registry is non-empty the
result is always defined. -/
theorem resolveActive_spec (l : List CalcEntry) (activeId : String) :
    ((∃ c ∈ l, c.id = activeId) →
      ∃ c ∈ l, c.id = activeId ∧ resolveActive l activeId = some c) ∧
    ((∀ c ∈ l, c.id ≠ activeId) → l ≠ [] →
      resolveActive l activeId = l.head?) ∧
    (l = [] → resolveActive l activeId = CALC_REGISTRY.head?) ∧
    (∃ c, resolveActive l activeId = some c) := by
  refine ⟨?_, ?_, ?_, ?_⟩
  · rintro ⟨c, hc, hid⟩
    cases hf : l.find? (fun c => c.id == activeId) with
    | none =>
      exact absurd (beq_iff_eq.mpr hid) (by simpa using List.find?_eq_none.mp hf c hc)
    | some c' =>
      have hpc' := List.find?_some hf
      simp only [beq_iff_eq] at hpc'
      refine ⟨c', List.mem_of_find?_eq_some hf, hpc', ?_⟩
      unfold resolveActive
      rw [hf]
  · intro hall hne
    have hf : l.find? (fun c => c.id == activeId) = none :=
      List.find?_eq_none.mpr (fun c hc => by simpa using hall c hc)
    unfold resolveActive
    rw [hf]
    cases l with
    | nil => exact absurd rfl hne
    | cons a t => rfl
  · intro h
    subst h
    rfl
  · cases hf : l.find? (fun c => c.id == activeId) with
    | some c =>
      refine ⟨c, ?_⟩
      unfold resolveActive
      rw [hf]
    | none =>
      cases l with
      | nil => exact ⟨⟨"basic", "Basic Calculator",
          "add subtract multiply divide arithmetic"⟩, rfl⟩
      | cons a t =>
        refine ⟨a, ?_⟩
        unfold resolveActive
        rw [hf]
        rfl

/-- Witness for C5: resolving the id emi in the full registry returns
the EMI entry. -/
theorem resolveActive_spec_witness :
    ∃ c ∈ CALC_REGISTRY, c.id = "emi" ∧ resolveActive CALC_REGISTRY "emi" = some c :=
  (resolveActive_spec CALC_REGISTRY "emi").1 (by decide)

/-- Value of a character as a digit in bases up to 36 (0-9, a-z, A-Z),
none for other characters. -/
def digitValAny (c : Char) : Option ℕ :=
  if '0' ≤ c ∧ c ≤ '9' then some (c.toNat - 48)
  else if 'a' ≤ c ∧ c ≤ 'z' then some (c.toNat - 97 + 10)
  else if 'A' ≤ c ∧ c ≤ 'Z' then some (c.toNat - 65 + 10)
  else none

/-- Split a character list into its longest run of digits valid in the
given base, and the rest. -/
def takeBaseDigits (b : ℕ) : List Char → List ℕ × List Char
  | [] => ([], [])
  | c :: rest =>
    match digitValAny c with
    | some d =>
      if d < b then
        let p := takeBaseDigits b rest
        (d :: p.1, p.2)
      else ([], c :: rest)
    | none => ([], c :: rest)

/-- Model of JavaScript parseInt with an explicit radix: skip leading
whitespace, optional sign, an optional 0x marker when the radix is 16,
then the longest run of digits valid in the radix; no digit gives NaN,
modelled as none. -/
def parseIntJS (s : String) (radix : ℕ) : Option ℤ :=
  let cs := s.toList.dropWhile Char.isWhitespace
  let sg := parseSign cs
  let body :=
    if radix = 16 then
      match sg.2 with
      | '0' :: 'x' :: r => r
      | '0' :: 'X' :: r => r
      | r => r
    else sg.2
  let dp := takeBaseDigits radix body
  if dp.1 = [] then none
  else some (sg.1 * (natOfDigits radix dp.1 : ℤ))

/-- Uppercase digit character for values 0-35: 0-9 then A-Z, the
composition of the lowercase digits of Number.prototype.toString with
toUpperCase. -/
def digitCharUpper (d : ℕ) : Char :=
  if d < 10 then Char.ofNat (48 + d) else Char.ofNat (55 + d)

/-- Digit characters of n in base b, most significant first, driven by a
fuel argument (fuel n+1 suffices, since the value shrinks by a factor b
at every step for b at least 2). -/
def natToDigitsUpperAux (b : ℕ) : ℕ → ℕ → List Char
  | _, 0 => []
  | n, fuel+1 =>
    if n < b then [digitCharUpper n]
    else natToDigitsUpperAux b (n / b) fuel ++ [digitCharUpper (n % b)]

/-- Digit string of a natural number in base b, uppercased. -/
def natToDigitsUpper (b n : ℕ) : List Char :=
  natToDigitsUpperAux b n (n+1)

/-- Rendering of an integer in a base, uppercased, as JavaScript
Number.prototype.toString(radix).toUpperCase() renders integer values:
digit string of the absolute value over digits 0-9 and A-Z, with a
leading minus sign when negative. -/
def renderBase (n : ℤ) (b : ℕ) : String :=
  let mag := String.mk (natToDigitsUpper b n.natAbs)
  if n < 0 then "-" ++ mag else mag

/-- The base converter output (source lines 562-565): parse the value in
fromBase; NaN gives the dash sentinel, otherwise render in toBase
uppercased. -/
def baseOut (val : String) (fromB toB : ℕ) : String :=
  match parseIntJS val fromB with
  | none => "-"
  | some n => renderBase n toB

/-- Claim C9: the base converter parses the value as an integer in
fromBase and renders it uppercased in toBase; an unparsable value gives
the dash sentinel; in particular 42 from base 10 to base 2 is 101010,
and the high base-36 digits render as uppercase letters (35 is Z). -/
theorem baseOut_spec :
    baseOut "42" 10 2 = "101010" ∧
    baseOut "35" 10 36 = "Z" ∧
    (∀ s f t, parseIntJS s f = none → baseOut s f t = "-") ∧
    (∀ s f t n, parseIntJS s f = some n → baseOut s f t = renderBase n t) := by
  refine ⟨by decide, by decide, ?_, ?_⟩
  · intro s f t h
    unfold baseOut
    rw [h]
  · intro s f t n h
    unfold baseOut
    rw [h]

/-- Witness for C9: the unparsable value zz in base 10 gives the dash
sentinel. -/
theorem baseOut_spec_witness : baseOut "zz" 10 2 = "-" :=
  baseOut_spec.2.2.1 "zz" 10 2 (by decide)

/-- Claim C6: toNum is total (always yields a definite rational): a
finite number passes through, every non-finite number yields the
default, a string is insensitive to comma thousands separators, and the
parsed string yields the default exactly when the parse result is not
finite, else the parsed value. -/
theorem toNum_spec (d : ℚ) :
    (∀ q : ℚ, toNum (JVal.num (JNum.fin q)) d = q) ∧
    (toNum (JVal.num JNum.nan) d = d) ∧
    (toNum (JVal.num JNum.inf) d = d) ∧
    (toNum (JVal.num JNum.ninf) d = d) ∧
    (∀ s : String, toNum (JVal.str s) d = toNum (JVal.str (stripThousands s)) d) ∧
    (∀ s : String, jnumIsFinite (parseFloat (stripThousands s)) = false →
      toNum (JVal.str s) d = d) ∧
    (∀ s q, parseFloat (stripThousands s) = JNum.fin q →
      toNum (JVal.str s) d = q) := by
  have hid : ∀ s, stripThousands (stripThousands s) = stripThousands s := by
    intro s
    simp [stripThousands, List.filter_filter]
  refine ⟨fun q => rfl, rfl, rfl, rfl, fun s => ?_, fun s h => ?_, fun s q h => ?_⟩
  · simp only [toNum, hid s]
  · cases hp : parseFloat (stripThousands s) with
    | fin q => rw [hp] at h; simp [jnumIsFinite] at h
    | nan => simp [toNum, hp]
    | inf => simp [toNum, hp]
    | ninf => simp [toNum, hp]
  · simp [toNum, h]

/-- Witness for C6: the unparsable string abc falls back to the default
7, and the string 1,234.5 has its comma stripped and parses to the
rational 1234.5 = 2469/2. -/
theorem toNum_spec_witness :
    toNum (JVal.str "abc") 7 = 7 ∧ toNum (JVal.str "1,234.5") 7 = 2469/2 :=
  ⟨(toNum_spec 7).2.2.2.2.2.1 "abc" (by decide),
    (toNum_spec 7).2.2.2.2.2.2 "1,234.5" (2469/2)
      (by simp [parseFloat, stripThousands, parseSign, takeDigits, digitVal?,
            natOfDigits, parseExp]; norm_num)⟩
